import Mathlib

/-!
Verification of the body-capture-and-restore core of the http-debug-proxy
(src/main.go): `readAndMaybeDecompressBody`, `dumpHTTPRequest`,
`dumpHTTPResponse`, and the `ModifyResponse` hook installed in `main`.

Modelling choices:

* A body stream (`io.ReadCloser`) is embedded with explicit state: either a
  byte reader over a list of bytes with a current position (the shape
  produced by `io.NopCloser(bytes.NewReader(...))`), or a stream whose read
  fails with an error message (a broken underlying connection).
  `io.ReadAll` returns both the read outcome and the stream state
  afterwards.  Bytes are modelled as `Nat`; no claim depends on the 0..255
  range.  `Close` is a no-op on both stream shapes and is not modelled.
* The gzip decoder is the Go standard library `compress/gzip`, external to
  this repository.  The source distinguishes exactly three outcomes of it:
  `gzip.NewReader` fails, `io.ReadAll` on the gzip reader fails, or the
  decode succeeds with the decompressed bytes.  It is therefore embedded as
  a parameter `gunzip : List Nat → GzipResult` with those three outcomes;
  all theorems quantify over it.
* `httputil.DumpRequestOut` / `httputil.DumpResponse` (header rendering,
  also external) is embedded as a parameter `headerDump : Except String
  String`, the outcome of the call; theorems quantify over it.
* `log.Printf` output is reified as a list of `LogEntry` values.
* The dump functions mutate the message in place in Go; here they return
  the log entries together with the updated message.  The result is an
  `Option`: `none` models a nil-dereference panic, which arises exactly
  when `dumpHTTPResponse` passes a nil `resp.Body` into
  `readAndMaybeDecompressBody` (whose `io.ReadAll(body)` then calls a
  method on a nil interface).
-/

/-- A body stream: either a byte reader over `data` at position `pos`
(as produced by `io.NopCloser(bytes.NewReader(data))`), or a stream whose
read fails with `msg` (broken underlying connection). -/
inductive ReadCloser where
  | reader (data : List Nat) (pos : Nat)
  | failing (msg : String)
deriving DecidableEq

/-- `io.ReadAll` on a body stream: the read outcome together with the
stream's state afterwards (a reader is consumed to its end; reading a
broken stream errors and leaves it broken). -/
def ioReadAll : ReadCloser → Except String (List Nat) × ReadCloser
  | .reader data pos => (.ok (data.drop pos), .reader data data.length)
  | .failing msg => (.error msg, .failing msg)

/-- The bytes (or error) obtained by fully reading a body stream. -/
def fullRead (c : ReadCloser) : Except String (List Nat) :=
  (ioReadAll c).1

/-- Outcome of running the external `compress/gzip` decoder over a byte
sequence.  The source observes exactly three cases: `gzip.NewReader`
returns an error (`openFail`), `io.ReadAll` on the opened gzip reader
returns an error (`readFail`), or the decode succeeds (`ok`). -/
inductive GzipResult where
  | openFail
  | readFail
  | ok (data : List Nat)
deriving DecidableEq

/-- The four named results of `readAndMaybeDecompressBody`
(`rawBody, decodedBody []byte, restore func() io.ReadCloser, err error`),
each nilable as in Go. -/
structure CaptureResult where
  rawBody : Option (List Nat)
  decodedBody : Option (List Nat)
  restore : Option (Unit → ReadCloser)
  err : Option String

/-- src/main.go lines 16-41.  Reads the whole input stream (the stream is
closed either way; `Close` is a no-op in the model), and on a read error
returns all-nil results plus the error.  Otherwise, when `encoding` equals
"gzip" it attempts a gzip decode of the raw bytes, falling back to the raw
bytes if opening the gzip reader or reading it fails; for any other
encoding the decoded bytes are the raw bytes.  The restore factory yields
a fresh reader over the raw bytes on every call. -/
def readAndMaybeDecompressBody (gunzip : List Nat → GzipResult)
    (body : ReadCloser) (encoding : String) : CaptureResult :=
  match fullRead body with
  | .error e => ⟨none, none, none, some e⟩
  | .ok rawBody =>
    let decoded : List Nat :=
      if encoding = "gzip" then
        match gunzip rawBody with
        | .openFail => rawBody
        | .readFail => rawBody
        | .ok d => d
      else rawBody
    ⟨some rawBody, some decoded, some (fun _ => .reader rawBody 0), none⟩

/-- `http.Header.Get`: first value for the key, or "" when absent.
("Content-Encoding" is already in canonical form, so MIME canonicalisation
of the key is the identity here.) -/
def headerGet (h : List (String × String)) (key : String) : String :=
  match h.find? (fun p => p.1 == key) with
  | some p => p.2
  | none => ""

/-- One `log.Printf` record emitted by the dump functions. -/
inductive LogEntry where
  | reqHeaderDumpError (msg : String)
  | reqHeaders (dump : String)
  | reqBodyReadError (msg : String)
  | reqBody (bytes : List Nat)
  | respHeaderDumpError (msg : String)
  | respHeaders (dump : String)
  | respBodyReadError (msg : String)
  | respBody (bytes : List Nat)
deriving DecidableEq

/-- The fields of `http.Request` the program touches; `body` is nilable. -/
structure Request where
  method : String
  url : String
  header : List (String × String)
  body : Option ReadCloser
deriving DecidableEq

/-- The fields of `http.Response` the program touches; `body` is nilable. -/
structure Response where
  status : Nat
  header : List (String × String)
  body : Option ReadCloser
deriving DecidableEq

/-- The header block logged by `dumpHTTPRequest` lines 64-69: the failure
record when `httputil.DumpRequestOut` errs, the rendered headers
otherwise. -/
def requestHeaderBlock : Except String String → List LogEntry
  | .error e => [.reqHeaderDumpError e]
  | .ok s => [.reqHeaders s]

/-- The header block logged by `dumpHTTPResponse` lines 45-50. -/
def responseHeaderBlock : Except String String → List LogEntry
  | .error e => [.respHeaderDumpError e]
  | .ok s => [.respHeaders s]

/-- src/main.go lines 63-83.  Logs the header block (or the header-dump
failure), returns early when the body is nil, otherwise captures the body
with the request's declared Content-Encoding.  On a capture error it logs
the failure and leaves the request body as the consumed stream; otherwise
it logs the decoded body (when non-nil) and installs the restored stream.
Calling a nil restore factory would panic (`none`); that branch is
unreachable. -/
def dumpHTTPRequest (gunzip : List Nat → GzipResult)
    (headerDump : Except String String) (req : Request) :
    Option (List LogEntry × Request) :=
  let hlogs := requestHeaderBlock headerDump
  match req.body with
  | none => some (hlogs, req)
  | some body =>
    match readAndMaybeDecompressBody gunzip body
        (headerGet req.header "Content-Encoding") with
    | ⟨_, _, _, some e⟩ =>
      some (hlogs ++ [.reqBodyReadError e],
        { req with body := some (ioReadAll body).2 })
    | ⟨_, decodedBody, restore, none⟩ =>
      let blogs := match decodedBody with
        | some d => [LogEntry.reqBody d]
        | none => []
      match restore with
      | some f => some (hlogs ++ blogs, { req with body := some (f ()) })
      | none => none

/-- src/main.go lines 44-60.  Logs the header block (or the header-dump
failure), then unconditionally passes `resp.Body` to
`readAndMaybeDecompressBody`: a nil body is dereferenced inside
`io.ReadAll`, modelled as `none`.  On a capture error it logs the failure
and leaves the response body as the consumed stream; otherwise it logs the
decoded body (when non-nil) and installs the restored stream. -/
def dumpHTTPResponse (gunzip : List Nat → GzipResult)
    (headerDump : Except String String) (resp : Response) :
    Option (List LogEntry × Response) :=
  let hlogs := responseHeaderBlock headerDump
  match resp.body with
  | none => none
  | some body =>
    match readAndMaybeDecompressBody gunzip body
        (headerGet resp.header "Content-Encoding") with
    | ⟨_, _, _, some e⟩ =>
      some (hlogs ++ [.respBodyReadError e],
        { resp with body := some (ioReadAll body).2 })
    | ⟨_, decodedBody, restore, none⟩ =>
      let blogs := match decodedBody with
        | some d => [LogEntry.respBody d]
        | none => []
      match restore with
      | some f => some (hlogs ++ blogs, { resp with body := some (f ()) })
      | none => none

/-- The `ModifyResponse` hook installed in `main` (lines 108-111): dumps
the response and returns a nil error.  The outer `Option` models the
nil-body panic inside `dumpHTTPResponse`. -/
def modifyResponse (gunzip : List Nat → GzipResult)
    (headerDump : Except String String) (resp : Response) :
    Option ((List LogEntry × Response) × Option String) :=
  match dumpHTTPResponse gunzip headerDump resp with
  | none => none
  | some lr => some (lr, none)

/-- Every capture result is either the all-nil error shape or the
all-present success shape. -/
theorem captureShape (gunzip : List Nat → GzipResult)
    (body : ReadCloser) (encoding : String) :
    (∃ e, readAndMaybeDecompressBody gunzip body encoding
        = ⟨none, none, none, some e⟩) ∨
    (∃ raw dec f, readAndMaybeDecompressBody gunzip body encoding
        = ⟨some raw, some dec, some f, none⟩) := by
  cases body with
  | reader data pos =>
    exact Or.inr ⟨_, _, _, rfl⟩
  | failing msg =>
    exact Or.inl ⟨msg, rfl⟩

/-- C1: capturing a stream over any byte sequence `B` under any encoding
declaration and any behaviour of the external gzip decoder succeeds and
returns a restore factory; fully reading the stream produced by any
invocation of that factory yields exactly `B`. -/
theorem capture_restore_roundtrip (gunzip : List Nat → GzipResult)
    (E : String) (B : List Nat) :
    ∃ f : Unit → ReadCloser,
      (readAndMaybeDecompressBody gunzip (.reader B 0) E).restore = some f ∧
      ∀ u : Unit, fullRead (f u) = .ok B := by
  refine ⟨fun _ => .reader B 0, ?_, fun u => rfl⟩
  simp [readAndMaybeDecompressBody, fullRead, ioReadAll]

/-- C2: under encoding "gzip", if the external decoder succeeds on the raw
bytes the decoded output is the decompression; if opening the gzip reader
or reading it fails, the decoded output falls back to the raw bytes
unchanged; no error is returned in either case. -/
theorem gzip_decode_with_fallback (gunzip : List Nat → GzipResult)
    (B : List Nat) :
    (∀ d, gunzip B = .ok d →
      (readAndMaybeDecompressBody gunzip (.reader B 0) "gzip").decodedBody
        = some d) ∧
    (gunzip B = .openFail ∨ gunzip B = .readFail →
      (readAndMaybeDecompressBody gunzip (.reader B 0) "gzip").decodedBody
        = some B) ∧
    (readAndMaybeDecompressBody gunzip (.reader B 0) "gzip").err = none := by
  refine ⟨?_, ?_, ?_⟩
  · intro d h
    simp [readAndMaybeDecompressBody, fullRead, ioReadAll, h]
  · rintro (h | h) <;>
      simp [readAndMaybeDecompressBody, fullRead, ioReadAll, h]
  · simp [readAndMaybeDecompressBody, fullRead, ioReadAll]

theorem gzip_decode_with_fallback_witness :
    (readAndMaybeDecompressBody (fun _ => GzipResult.ok [7])
        (.reader [1, 2] 0) "gzip").decodedBody = some [7] ∧
    (readAndMaybeDecompressBody (fun _ => GzipResult.openFail)
        (.reader [1, 2] 0) "gzip").decodedBody = some [1, 2] ∧
    (readAndMaybeDecompressBody (fun _ => GzipResult.readFail)
        (.reader [1, 2] 0) "gzip").decodedBody = some [1, 2] :=
  ⟨(gzip_decode_with_fallback (fun _ => GzipResult.ok [7]) [1, 2]).1 [7] rfl,
   (gzip_decode_with_fallback (fun _ => GzipResult.openFail) [1, 2]).2.1
     (Or.inl rfl),
   (gzip_decode_with_fallback (fun _ => GzipResult.readFail) [1, 2]).2.1
     (Or.inr rfl)⟩

/-- C3: for any encoding other than "gzip" the capture is independent of
the gzip decoder, the decoded result equals the raw result, and on a
stream over `B` the decoded output is exactly `B`. -/
theorem non_gzip_passthrough (g1 g2 : List Nat → GzipResult)
    (body : ReadCloser) (E : String) (h : E ≠ "gzip") :
    readAndMaybeDecompressBody g1 body E
      = readAndMaybeDecompressBody g2 body E ∧
    (readAndMaybeDecompressBody g1 body E).decodedBody
      = (readAndMaybeDecompressBody g1 body E).rawBody ∧
    ∀ B : List Nat,
      (readAndMaybeDecompressBody g1 (.reader B 0) E).decodedBody
        = some B := by
  refine ⟨?_, ?_, ?_⟩
  · cases body <;> simp [readAndMaybeDecompressBody, fullRead, ioReadAll, h]
  · cases body <;> simp [readAndMaybeDecompressBody, fullRead, ioReadAll, h]
  · intro B
    simp [readAndMaybeDecompressBody, fullRead, ioReadAll, h]

theorem non_gzip_passthrough_witness :
    readAndMaybeDecompressBody (fun _ => GzipResult.ok [9])
        (.reader [1] 0) "br"
      = readAndMaybeDecompressBody (fun _ => GzipResult.openFail)
        (.reader [1] 0) "br" ∧
    (readAndMaybeDecompressBody (fun _ => GzipResult.ok [9])
        (.reader [1] 0) "br").decodedBody = some [1] :=
  ⟨(non_gzip_passthrough (fun _ => GzipResult.ok [9])
      (fun _ => GzipResult.openFail) (.reader [1] 0) "br" (by decide)).1,
   (non_gzip_passthrough (fun _ => GzipResult.ok [9])
      (fun _ => GzipResult.openFail) (.reader [1] 0) "br" (by decide)).2.2 [1]⟩

/-- C4: the capture errs exactly when the initial full read of the input
stream errs; in that case all four results are the all-nil error shape,
and whenever the initial read succeeds no error is returned (in
particular gzip failures never produce an error). -/
theorem capture_error_iff_read_error (gunzip : List Nat → GzipResult)
    (body : ReadCloser) (E : String) :
    ((∃ e, (readAndMaybeDecompressBody gunzip body E).err = some e) ↔
      (∃ e, fullRead body = .error e)) ∧
    (∀ e, fullRead body = .error e →
      readAndMaybeDecompressBody gunzip body E
        = ⟨none, none, none, some e⟩) ∧
    (∀ bs, fullRead body = .ok bs →
      (readAndMaybeDecompressBody gunzip body E).err = none) := by
  cases body with
  | reader data pos =>
    refine ⟨?_, ?_, ?_⟩
    · simp [readAndMaybeDecompressBody, fullRead, ioReadAll]
    · intro e he
      simp [fullRead, ioReadAll] at he
    · intro bs _
      simp [readAndMaybeDecompressBody, fullRead, ioReadAll]
  | failing msg =>
    refine ⟨?_, ?_, ?_⟩
    · simp [readAndMaybeDecompressBody, fullRead, ioReadAll]
    · intro e he
      simp only [fullRead, ioReadAll, Except.error.injEq] at he
      subst he
      rfl
    · intro bs hbs
      simp [fullRead, ioReadAll] at hbs

theorem capture_error_iff_read_error_witness :
    readAndMaybeDecompressBody (fun _ => GzipResult.openFail)
        (.failing "boom") "gzip" = ⟨none, none, none, some "boom"⟩ :=
  (capture_error_iff_read_error (fun _ => GzipResult.openFail)
    (.failing "boom") "gzip").2.1 "boom" rfl

/-- C5: the restore factory of a successful capture is fresh and
idempotent with respect to the captured raw bytes: every invocation
returns a reader positioned at the beginning of the raw byte sequence,
any two invocations return equal (independent) stream values, and fully
reading any invocation's stream yields exactly the raw bytes — reads are
explicit-state, so reading one returned stream cannot affect another. -/
theorem restore_factory_fresh (gunzip : List Nat → GzipResult)
    (body : ReadCloser) (E : String) (raw : List Nat) (f : Unit → ReadCloser)
    (hraw : (readAndMaybeDecompressBody gunzip body E).rawBody = some raw)
    (hf : (readAndMaybeDecompressBody gunzip body E).restore = some f) :
    ∀ u v : Unit,
      f u = .reader raw 0 ∧ f u = f v ∧ fullRead (f v) = .ok raw := by
  intro u v
  cases body with
  | reader data pos =>
    simp only [readAndMaybeDecompressBody, fullRead, ioReadAll,
      Option.some.injEq] at hraw hf
    subst hraw
    subst hf
    exact ⟨rfl, rfl, rfl⟩
  | failing msg =>
    simp [readAndMaybeDecompressBody, fullRead, ioReadAll] at hraw

theorem restore_factory_fresh_witness :
    ReadCloser.reader [5, 6] 0 = ReadCloser.reader [5, 6] 0 ∧
    ReadCloser.reader [5, 6] 0 = ReadCloser.reader [5, 6] 0 ∧
    fullRead (ReadCloser.reader [5, 6] 0) = .ok [5, 6] :=
  restore_factory_fresh (fun _ => GzipResult.readFail)
    (.reader [5, 6] 0) "" [5, 6] (fun _ => .reader [5, 6] 0) rfl rfl () ()

/-- C6: a request with a nil body gets only the header block logged — no
request-body entry of any kind — no body capture is performed (the result
does not depend on the gzip decoder), and the request is returned with
every field unmodified. -/
theorem request_without_body_untouched (gunzip : List Nat → GzipResult)
    (hd : Except String String) (req : Request) (h : req.body = none) :
    dumpHTTPRequest gunzip hd req = some (requestHeaderBlock hd, req) ∧
    (∀ d, LogEntry.reqBody d ∉ requestHeaderBlock hd) ∧
    (∀ e, LogEntry.reqBodyReadError e ∉ requestHeaderBlock hd) := by
  refine ⟨by simp [dumpHTTPRequest, h], ?_, ?_⟩ <;>
    intro x <;> cases hd <;> simp [requestHeaderBlock]

theorem request_without_body_untouched_witness :
    dumpHTTPRequest (fun _ => GzipResult.openFail) (.ok "H")
        ⟨"GET", "/", [], none⟩
      = some (requestHeaderBlock (.ok "H"), ⟨"GET", "/", [], none⟩) :=
  (request_without_body_untouched (fun _ => GzipResult.openFail) (.ok "H")
    ⟨"GET", "/", [], none⟩ rfl).1

/-- C7 counterexample: a response with a nil body makes `dumpHTTPResponse`
fault (nil dereference inside `io.ReadAll`, modelled as `none`) instead of
returning normally, so the dump operations do not return normally for
every response. -/
theorem response_dump_faults_on_nil_body :
    dumpHTTPResponse (fun _ => GzipResult.openFail) (.ok "hdr")
      ⟨204, [], none⟩ = none := rfl

/-- C7 (amended): for every request — nil body included — and every
response whose body is non-nil, the dump operations propagate no failure
(header render error, body read error, or decompression error) to the
proxy's control flow: `dumpHTTPRequest` returns normally,
`dumpHTTPResponse` returns normally, and the `ModifyResponse` hook returns
a nil error. -/
theorem dump_never_propagates (gunzip : List Nat → GzipResult)
    (hd : Except String String) (req : Request) (resp : Response)
    (b : ReadCloser) (h : resp.body = some b) :
    (dumpHTTPRequest gunzip hd req).isSome ∧
    ∃ lr, modifyResponse gunzip hd resp = some (lr, none) := by
  constructor
  · cases hb : req.body with
    | none => simp [dumpHTTPRequest, hb]
    | some b2 =>
      rcases captureShape gunzip b2 (headerGet req.header "Content-Encoding")
          with ⟨e2, hc⟩ | ⟨raw, dec, f, hc⟩ <;>
        simp [dumpHTTPRequest, hb, hc]
  · have hs : ∃ lr, dumpHTTPResponse gunzip hd resp = some lr := by
      rcases captureShape gunzip b (headerGet resp.header "Content-Encoding")
          with ⟨e2, hc⟩ | ⟨raw, dec, f, hc⟩
      · exact ⟨(responseHeaderBlock hd ++ [.respBodyReadError e2],
          { resp with body := some (ioReadAll b).2 }),
          by simp [dumpHTTPResponse, h, hc]⟩
      · exact ⟨(responseHeaderBlock hd ++ [.respBody dec],
          { resp with body := some (f ()) }),
          by simp [dumpHTTPResponse, h, hc]⟩
    rcases hs with ⟨lr, hlr⟩
    exact ⟨lr, by simp [modifyResponse, hlr]⟩

theorem dump_never_propagates_witness :
    (dumpHTTPRequest (fun _ => GzipResult.openFail) (.error "bad")
        ⟨"GET", "/", [], some (.failing "x")⟩).isSome ∧
    ∃ lr, modifyResponse (fun _ => GzipResult.openFail) (.error "bad")
        ⟨200, [], some (.reader [1] 0)⟩ = some (lr, none) :=
  dump_never_propagates (fun _ => GzipResult.openFail) (.error "bad")
    ⟨"GET", "/", [], some (.failing "x")⟩ ⟨200, [], some (.reader [1] 0)⟩
    (.reader [1] 0) rfl

/-- C8: a header-rendering failure is logged first and changes nothing
else: the remaining log entries and the updated message are exactly those
of the successful-header run, and when the body capture succeeds the
restored stream is still installed as the message body. -/
theorem header_failure_still_captures (gunzip : List Nat → GzipResult)
    (e s : String) (req : Request) (resp : Response) :
    (∃ tail req2,
      dumpHTTPRequest gunzip (.error e) req
        = some (.reqHeaderDumpError e :: tail, req2) ∧
      dumpHTTPRequest gunzip (.ok s) req
        = some (.reqHeaders s :: tail, req2)) ∧
    (∀ b, resp.body = some b →
      ∃ tail resp2,
        dumpHTTPResponse gunzip (.error e) resp
          = some (.respHeaderDumpError e :: tail, resp2) ∧
        dumpHTTPResponse gunzip (.ok s) resp
          = some (.respHeaders s :: tail, resp2)) ∧
    (∀ b raw dec f, req.body = some b →
      readAndMaybeDecompressBody gunzip b
          (headerGet req.header "Content-Encoding")
        = ⟨some raw, some dec, some f, none⟩ →
      ∃ logs,
        dumpHTTPRequest gunzip (.error e) req
          = some (logs, { req with body := some (f ()) }) ∧
        LogEntry.reqHeaderDumpError e ∈ logs) := by
  refine ⟨?_, ?_, ?_⟩
  · cases hb : req.body with
    | none =>
      exact ⟨[], req, by simp [dumpHTTPRequest, hb, requestHeaderBlock],
        by simp [dumpHTTPRequest, hb, requestHeaderBlock]⟩
    | some b =>
      rcases captureShape gunzip b (headerGet req.header "Content-Encoding")
          with ⟨e2, hc⟩ | ⟨raw, dec, f, hc⟩
      · exact ⟨[.reqBodyReadError e2], { req with body := some (ioReadAll b).2 },
          by simp [dumpHTTPRequest, hb, hc, requestHeaderBlock],
          by simp [dumpHTTPRequest, hb, hc, requestHeaderBlock]⟩
      · exact ⟨[.reqBody dec], { req with body := some (f ()) },
          by simp [dumpHTTPRequest, hb, hc, requestHeaderBlock],
          by simp [dumpHTTPRequest, hb, hc, requestHeaderBlock]⟩
  · intro b hb
    rcases captureShape gunzip b (headerGet resp.header "Content-Encoding")
        with ⟨e2, hc⟩ | ⟨raw, dec, f, hc⟩
    · exact ⟨[.respBodyReadError e2], { resp with body := some (ioReadAll b).2 },
        by simp [dumpHTTPResponse, hb, hc, responseHeaderBlock],
        by simp [dumpHTTPResponse, hb, hc, responseHeaderBlock]⟩
    · exact ⟨[.respBody dec], { resp with body := some (f ()) },
        by simp [dumpHTTPResponse, hb, hc, responseHeaderBlock],
        by simp [dumpHTTPResponse, hb, hc, responseHeaderBlock]⟩
  · intro b raw dec f hb hc
    exact ⟨[.reqHeaderDumpError e, .reqBody dec],
      by simp [dumpHTTPRequest, hb, hc, requestHeaderBlock],
      by simp⟩

theorem header_failure_still_captures_witness :
    ∃ logs,
      dumpHTTPRequest (fun _ => GzipResult.openFail) (.error "bad")
          ⟨"POST", "/a", [], some (.reader [3] 0)⟩
        = some (logs,
          { method := "POST", url := "/a", header := [],
            body := some (ReadCloser.reader [3] 0) }) ∧
      LogEntry.reqHeaderDumpError "bad" ∈ logs :=
  (header_failure_still_captures (fun _ => GzipResult.openFail) "bad" "S"
      ⟨"POST", "/a", [], some (.reader [3] 0)⟩ ⟨200, [], none⟩).2.2
    (.reader [3] 0) [3] [3] (fun _ => .reader [3] 0) rfl rfl

/-- C9: `dumpHTTPResponse` performs no nil-body check: on a response with
a nil body it faults (modelled `none`), on any response with a non-nil
body it returns normally, while `dumpHTTPRequest` returns normally even
on a nil body. -/
theorem response_dump_requires_body (gunzip : List Nat → GzipResult)
    (hd : Except String String) (resp : Response) (req : Request) :
    (resp.body = none → dumpHTTPResponse gunzip hd resp = none) ∧
    (∀ b, resp.body = some b → (dumpHTTPResponse gunzip hd resp).isSome) ∧
    (req.body = none → (dumpHTTPRequest gunzip hd req).isSome) := by
  refine ⟨?_, ?_, ?_⟩
  · intro h
    simp [dumpHTTPResponse, h]
  · intro b h
    rcases captureShape gunzip b (headerGet resp.header "Content-Encoding")
        with ⟨e2, hc⟩ | ⟨raw, dec, f, hc⟩ <;>
      simp [dumpHTTPResponse, h, hc]
  · intro h
    simp [dumpHTTPRequest, h]

theorem response_dump_requires_body_witness :
    dumpHTTPResponse (fun _ => GzipResult.readFail) (.error "E")
        ⟨500, [], none⟩ = none ∧
    (dumpHTTPRequest (fun _ => GzipResult.readFail) (.error "E")
        ⟨"HEAD", "/h", [], none⟩).isSome :=
  ⟨(response_dump_requires_body (fun _ => GzipResult.readFail) (.error "E")
      ⟨500, [], none⟩ ⟨"HEAD", "/h", [], none⟩).1 rfl,
   (response_dump_requires_body (fun _ => GzipResult.readFail) (.error "E")
      ⟨500, [], none⟩ ⟨"HEAD", "/h", [], none⟩).2.2 rfl⟩

/-- C10: the gzip test is exact, case-sensitive string equality with
"gzip": any declaration differing in any character leaves the decoded
output equal to the raw bytes, shown in general and at the variants
"GZIP", " gzip" and "gzip, br" under a decoder that would have produced
different bytes. -/
theorem gzip_check_is_exact (gunzip : List Nat → GzipResult)
    (B : List Nat) (E : String) (h : E ≠ "gzip") :
    (readAndMaybeDecompressBody gunzip (.reader B 0) E).decodedBody
      = some B ∧
    (readAndMaybeDecompressBody (fun _ => GzipResult.ok [9])
        (.reader [1, 2] 0) "GZIP").decodedBody = some [1, 2] ∧
    (readAndMaybeDecompressBody (fun _ => GzipResult.ok [9])
        (.reader [1, 2] 0) " gzip").decodedBody = some [1, 2] ∧
    (readAndMaybeDecompressBody (fun _ => GzipResult.ok [9])
        (.reader [1, 2] 0) "gzip, br").decodedBody = some [1, 2] := by
  refine ⟨?_, rfl, rfl, rfl⟩
  simp [readAndMaybeDecompressBody, fullRead, ioReadAll, h]

theorem gzip_check_is_exact_witness :
    (readAndMaybeDecompressBody (fun _ => GzipResult.ok [9])
        (.reader [4, 5] 0) "Gzip").decodedBody = some [4, 5] :=
  (gzip_check_is_exact (fun _ => GzipResult.ok [9]) [4, 5] "Gzip"
    (by decide)).1
